import Mathlib

/-!
Verification of the asynchronous read-dispatch engine of `Socket.c` (SAL).

The embedding models the socket record (`SAL_Socket`), the process-wide
engine state (registration list `asyncSocketList`, worker flags), the
registration operations `SAL_Socket_SetReadCallback` /
`SAL_Socket_UnsetSocketCallback` / `SAL_Socket_Close` /
`SAL_Socket_ClearCallbacks`, the poller's batch construction
(lines 67-77) and its readable-handle dispatch step (lines 80-87), and
the read wrapper `SAL_Socket_Read` (lines 388-404).

Sockets are heap objects addressed by pointer in C; here a socket is
addressed by a `Nat` identity, nullable pointers are `Option Nat`, and
the heap is a total function from identities to socket records.
Callbacks and callback-state pointers are opaque in the engine, so they
are modelled as `Nat` identities as well; a callback invocation is
recorded as a `Delivery` value instead of calling a function pointer.
-/

/-- Socket record, from `struct SAL_Socket` as used in Socket.c:
raw descriptor, connected flag, last error, nullable read callback and
nullable callback state. -/
structure SAL_Socket where
  RawSocket : Int
  Connected : Bool
  LastError : Int
  ReadCallback : Option Nat
  ReadCallbackState : Option Nat
deriving DecidableEq

/-- Socket.c lines 44-51: `SAL_Socket_Init` resets every field. -/
def SAL_Socket_Init : SAL_Socket :=
  { RawSocket := 0, Connected := false, LastError := 0,
    ReadCallback := none, ReadCallbackState := none }

/-- Process-wide engine state: the socket heap, the registration list
`asyncSocketList` (socket identities, insertion order), whether the list
storage is allocated, the `asyncWorkerRunning` flag, whether a live
worker task exists, and how many worker tasks were ever started. -/
structure EngineState where
  sockets : Nat → SAL_Socket
  asyncSocketList : List Nat
  listAllocated : Bool
  asyncWorkerRunning : Bool
  workerActive : Bool
  workerCount : Nat

/-- Write one socket record back into the heap. -/
def updateSocket (st : EngineState) (id : Nat) (s : SAL_Socket) : EngineState :=
  { st with sockets := fun j => if j = id then s else st.sockets j }

/-- Socket.c lines 100-104: allocate a fresh registration list, mark the
worker running and spawn the background task.  The list and thread
primitives live in Utilities/AsyncLinkedList and Thread.h (not part of
this source file); spawning is modelled as a live worker and a bumped
generation counter. -/
def SAL_Socket_CallbackWorker_Start (st : EngineState) : EngineState :=
  { st with asyncSocketList := [], listAllocated := true,
            asyncWorkerRunning := true, workerActive := true,
            workerCount := st.workerCount + 1 }

/-- Socket.c lines 106-110: clear `asyncWorkerRunning`, join the worker
(after the join no live worker remains), release the list storage.
Modelled from the spec for the thread primitive: the join waits only
for a live worker. -/
def SAL_Socket_CallbackWorker_Shutdown (st : EngineState) : EngineState :=
  { st with asyncWorkerRunning := false, workerActive := false,
            asyncSocketList := [], listAllocated := false }

/-- Socket.c lines 481-483: `SAL_Socket_ClearCallbacks` just shuts the
worker down. -/
def SAL_Socket_ClearCallbacks (st : EngineState) : EngineState :=
  SAL_Socket_CallbackWorker_Shutdown st

/-- Whether a call to `SAL_Socket_ClearCallbacks` blocks: the join in
`SAL_Socket_CallbackWorker_Shutdown` waits only when a live worker task
still runs. -/
def shutdownBlocks (st : EngineState) : Bool :=
  st.workerActive

/-- Registration error taxonomy: the asserts on the arguments of
`SAL_Socket_SetReadCallback` reject absent parameters. -/
inductive SALError where
  | InvalidArgument
deriving DecidableEq

/-- Socket.c lines 450-459, success path of `SAL_Socket_SetReadCallback`
after the argument asserts: lazily start the worker when it is not
running, append the socket to `asyncSocketList` only when its
`ReadCallback` field is still null, then store callback and state. -/
def setReadCallbackOk (st : EngineState) (id cb sv : Nat) : EngineState :=
  let st1 := if st.asyncWorkerRunning then st else SAL_Socket_CallbackWorker_Start st
  let st2 := if (st1.sockets id).ReadCallback = none
             then { st1 with asyncSocketList := st1.asyncSocketList ++ [id] }
             else st1
  updateSocket st2 id
    { st2.sockets id with ReadCallback := some cb, ReadCallbackState := some sv }

/-- Socket.c lines 445-460: `SAL_Socket_SetReadCallback` asserts that
socket, callback and state are all present, then runs the success
path. -/
def SAL_Socket_SetReadCallback (st : EngineState) (sock cb sv : Option Nat) :
    Except SALError EngineState :=
  match sock, cb, sv with
  | some id, some c, some s => .ok (setReadCallbackOk st id c s)
  | _, _, _ => .error .InvalidArgument

/-- Socket.c lines 470-475, body of `SAL_Socket_UnsetSocketCallback`:
when a callback is registered, null both fields and remove the socket
(first entry with this identity) from `asyncSocketList`; otherwise do
nothing. -/
def unsetSocketCallbackOk (st : EngineState) (id : Nat) : EngineState :=
  if (st.sockets id).ReadCallback = none then st
  else
    let st1 := updateSocket st id
      { st.sockets id with ReadCallback := none, ReadCallbackState := none }
    { st1 with asyncSocketList := st1.asyncSocketList.erase id }

/-- Socket.c lines 467-476: `SAL_Socket_UnsetSocketCallback` asserts the
socket is present, then runs the body. -/
def SAL_Socket_UnsetSocketCallback (st : EngineState) (sock : Option Nat) :
    Except SALError EngineState :=
  match sock with
  | some id => .ok (unsetSocketCallbackOk st id)
  | none => .error .InvalidArgument

/-- Socket.c lines 364-378, success path of `SAL_Socket_Close`: unset
the callback, clear `Connected`, shut the descriptor down and mark it
invalid (-1 on POSIX). -/
def closeOk (st : EngineState) (id : Nat) : EngineState :=
  let st1 := unsetSocketCallbackOk st id
  updateSocket st1 id
    { st1.sockets id with Connected := false, RawSocket := -1 }

/-- Socket.c lines 364-378: `SAL_Socket_Close` asserts the socket is
present, then runs the success path. -/
def SAL_Socket_Close (st : EngineState) (sock : Option Nat) :
    Except SALError EngineState :=
  match sock with
  | some id => .ok (closeOk st id)
  | none => .error .InvalidArgument

/-- Socket.c lines 167-171 (and the Windows branch, lines 208-213): a
socket returned by a successful `SAL_Socket_Connect` is initialised and
then marked connected with its raw descriptor. -/
def socketFromConnect (fd : Int) : SAL_Socket :=
  { SAL_Socket_Init with RawSocket := fd, Connected := true }

/-- Socket.c lines 351-355 (and lines 334-338 on Windows): a socket
returned by a successful `SAL_Socket_Accept` is initialised and then
marked connected with its raw descriptor. -/
def socketFromAccept (fd : Int) : SAL_Socket :=
  { SAL_Socket_Init with RawSocket := fd, Connected := true }

/-- Socket.c lines 388-404: `SAL_Socket_Read` forwards to `recv` and
collapses every non-positive outcome (would-block, closed peer, error)
to 0; a positive count is returned unchanged.  The raw `recv` result is
passed in as `received`. -/
def SAL_Socket_Read (received : Int) : Nat :=
  if received ≤ 0 then 0 else received.toNat

/-- One recorded callback invocation from the dispatch loop: which
socket's callback ran, the byte count handed to it, and the callback
state pointer handed to it. -/
structure Delivery where
  sockId : Nat
  bytes : Nat
  cbState : Option Nat
deriving DecidableEq

/-- Socket.c lines 80-87, the dispatch step of one poller cycle: for
every descriptor in the ready set, walk the whole `asyncSocketList` and,
for every entry whose `RawSocket` equals that descriptor, read into the
shared buffer and invoke the entry's callback with the byte count and
its state.  `recv` gives the raw receive result for each socket
identity. -/
def dispatchReadable (st : EngineState) (recv : Nat → Int) (readSet : List Int) :
    List Delivery :=
  readSet.flatMap (fun fd =>
    st.asyncSocketList.filterMap (fun id =>
      if (st.sockets id).RawSocket = fd then
        some { sockId := id, bytes := SAL_Socket_Read (recv id),
               cbState := (st.sockets id).ReadCallbackState }
      else none))

/-- Socket.c line 18: `FD_SETSIZE` is forced to 1024. -/
def FD_SETSIZE : Nat := 1024

/-- Socket.c lines 67-77, batch construction of one poller cycle over a
registration list with a persistent cursor `pos`: take up to
`FD_SETSIZE` entries from the cursor on; when the iterator hits the end
of the list before the batch fills (the loop left `socket == NULL`),
reset the cursor to the start, otherwise leave it after the batch.
Returns the batch and the new cursor.  The iterator itself lives in
Utilities/AsyncLinkedList (not part of this source file) and is
modelled from the spec as positional traversal in list order. -/
def buildBatch (sockets : List Nat) (pos : Nat) : List Nat × Nat :=
  if ((sockets.drop pos).take FD_SETSIZE).length < FD_SETSIZE
  then ((sockets.drop pos).take FD_SETSIZE, 0)
  else ((sockets.drop pos).take FD_SETSIZE, pos + FD_SETSIZE)

/-- Cursor after one poller cycle. -/
def stepPos (sockets : List Nat) (pos : Nat) : Nat :=
  (buildBatch sockets pos).2

/-- Cursor after `t` poller cycles starting from cursor `pos`. -/
def posAt (sockets : List Nat) (pos t : Nat) : Nat :=
  (stepPos sockets)^[t] pos

/-- Batch built in cycle `t` (0-indexed) starting from cursor `pos`. -/
def batchAt (sockets : List Nat) (pos t : Nat) : List Nat :=
  (buildBatch sockets (posAt sockets pos t)).1

/-- Engine invariant maintained by registration and unregistration:
the list holds no duplicate identities, membership in the list is
exactly possession of a non-null `ReadCallback`, and while the worker is
not running the list is empty (it has either never been allocated or
was just released). -/
def EngineInv (st : EngineState) : Prop :=
  st.asyncSocketList.Nodup ∧
  (∀ id, id ∈ st.asyncSocketList ↔ (st.sockets id).ReadCallback ≠ none) ∧
  (st.asyncWorkerRunning = false → st.asyncSocketList = [])

/-- A registration or unregistration call with possibly-null
arguments. -/
inductive SocketOp where
  | set (sock cb sv : Option Nat)
  | unset (sock : Option Nat)

/-- Run one call against the engine; a call rejected by the argument
asserts leaves the state unchanged. -/
def applyOp (st : EngineState) (op : SocketOp) : EngineState :=
  match op with
  | .set sock cb sv =>
    match SAL_Socket_SetReadCallback st sock cb sv with
    | .ok st1 => st1
    | .error _ => st
  | .unset sock =>
    match SAL_Socket_UnsetSocketCallback st sock with
    | .ok st1 => st1
    | .error _ => st

/-- Pristine process state: all sockets freshly initialised, no list
allocated, worker not running. -/
def initState : EngineState :=
  { sockets := fun _ => SAL_Socket_Init,
    asyncSocketList := [], listAllocated := false,
    asyncWorkerRunning := false, workerActive := false, workerCount := 0 }

/-- Run a sequence of registration calls from the pristine state. -/
def runOps (ops : List SocketOp) : EngineState :=
  ops.foldl applyOp initState

theorem engineInv_initState : EngineInv initState := by
  refine ⟨List.nodup_nil, ?_, fun _ => rfl⟩
  intro id
  simp [initState, SAL_Socket_Init]

/-- Claim C4: `SAL_Socket_ClearCallbacks` is idempotent: a second call
in a row, with no intervening registration, does not block on the join
(the worker already exited) and leaves the engine in exactly the
shut-down state produced by the first call. -/
theorem spec_C4_shutdown_idempotent (st : EngineState) :
    SAL_Socket_ClearCallbacks (SAL_Socket_ClearCallbacks st) =
      SAL_Socket_ClearCallbacks st ∧
    shutdownBlocks (SAL_Socket_ClearCallbacks st) = false := by
  exact ⟨rfl, rfl⟩

/-- Claim C5: `SAL_Socket_SetReadCallback` rejects an absent socket,
callback or state argument with `InvalidArgument`, synchronously, and
in that case the engine state is unchanged: no registration happens. -/
theorem spec_C5_invalid_args (st : EngineState) (sock cb sv : Option Nat)
    (h : sock = none ∨ cb = none ∨ sv = none) :
    SAL_Socket_SetReadCallback st sock cb sv = .error .InvalidArgument ∧
    applyOp st (.set sock cb sv) = st := by
  cases sock <;> cases cb <;> cases sv <;>
    simp_all [SAL_Socket_SetReadCallback, applyOp]

theorem spec_C5_invalid_args_witness :
    SAL_Socket_SetReadCallback initState none (some 1) (some 2) =
      .error .InvalidArgument ∧
    applyOp initState (.set none (some 1) (some 2)) = initState :=
  spec_C5_invalid_args initState none (some 1) (some 2) (Or.inl rfl)

/-- Claim C9: `SAL_Socket_Read` returns 0 exactly when the raw receive
result is zero or negative (would-block, closed peer, error), otherwise
it returns the positive receive count unchanged; under the `recv`
contract that the count never exceeds the buffer capacity, neither does
the returned value. -/
theorem spec_C9_read (received : Int) (bufferSize : Nat)
    (h : received ≤ (bufferSize : Int)) :
    (received ≤ 0 → SAL_Socket_Read received = 0) ∧
    (0 < received → (SAL_Socket_Read received : Int) = received) ∧
    SAL_Socket_Read received ≤ bufferSize := by
  unfold SAL_Socket_Read
  by_cases h0 : received ≤ 0
  · simp [h0]
  · have hpos : 0 < received := lt_of_not_ge h0
    simp only [h0, if_false]
    refine ⟨fun hc => hc.elim, fun _ => ?_, ?_⟩
    · exact Int.toNat_of_nonneg (le_of_lt hpos)
    · exact Int.toNat_le.mpr h

theorem spec_C9_read_witness :
    (((3 : Int) ≤ 0 → SAL_Socket_Read 3 = 0) ∧
     (0 < (3 : Int) → (SAL_Socket_Read 3 : Int) = 3) ∧
     SAL_Socket_Read 3 ≤ 5) :=
  spec_C9_read 3 5 (by decide)

/-- Claim C10: registration and unregistration touch only the socket's
`ReadCallback` and `ReadCallbackState` fields (besides list
membership): for every socket in the heap, `RawSocket`, `Connected` and
`LastError` are unchanged by both `setReadCallbackOk` and
`unsetSocketCallbackOk`. -/
theorem spec_C10_frame (st : EngineState) (id cb sv : Nat) (j : Nat) :
    (((setReadCallbackOk st id cb sv).sockets j).RawSocket =
        (st.sockets j).RawSocket ∧
     ((setReadCallbackOk st id cb sv).sockets j).Connected =
        (st.sockets j).Connected ∧
     ((setReadCallbackOk st id cb sv).sockets j).LastError =
        (st.sockets j).LastError) ∧
    (((unsetSocketCallbackOk st id).sockets j).RawSocket =
        (st.sockets j).RawSocket ∧
     ((unsetSocketCallbackOk st id).sockets j).Connected =
        (st.sockets j).Connected ∧
     ((unsetSocketCallbackOk st id).sockets j).LastError =
        (st.sockets j).LastError) := by
  constructor
  · unfold setReadCallbackOk updateSocket SAL_Socket_CallbackWorker_Start
    by_cases hw : st.asyncWorkerRunning <;>
      by_cases hj : j = id <;>
      simp [hw, hj] <;> split <;> simp
  · unfold unsetSocketCallbackOk updateSocket
    by_cases hcb : (st.sockets id).ReadCallback = none <;>
      by_cases hj : j = id <;>
      simp [hcb, hj]

/-- Engine state with one registered socket (identity 0, descriptor 5,
callback 1, callback state 7). -/
def oneSocketState : EngineState :=
  { sockets := fun _ =>
      { RawSocket := 5, Connected := true, LastError := 0,
        ReadCallback := some 1, ReadCallbackState := some 7 },
    asyncSocketList := [0], listAllocated := true,
    asyncWorkerRunning := true, workerActive := true, workerCount := 1 }

/-- Claim C2 counterexample: with socket 0 registered on descriptor 5
and `recv` yielding 0 (closed peer or no data), descriptor 5 being
reported readable still produces a callback invocation, carrying a byte
count of 0 — the dispatch loop of Socket.c lines 80-87 never tests the
read result before calling the callback. -/
theorem spec_C2_cex :
    SAL_Socket_Read 0 = 0 ∧
    dispatchReadable oneSocketState (fun _ => 0) [5] =
      [{ sockId := 0, bytes := 0, cbState := some 7 }] := by
  exact ⟨rfl, rfl⟩

/-- Claim C2 amended: the poller invokes the callback of every matching
registered socket for every readable descriptor unconditionally, handing
it whatever byte count `SAL_Socket_Read` produced — including 0. -/
theorem spec_C2_unconditional_delivery (st : EngineState) (recv : Nat → Int)
    (readSet : List Int) (fd : Int) (id : Nat)
    (h1 : fd ∈ readSet) (h2 : id ∈ st.asyncSocketList)
    (h3 : (st.sockets id).RawSocket = fd) :
    ({ sockId := id, bytes := SAL_Socket_Read (recv id),
       cbState := (st.sockets id).ReadCallbackState } : Delivery) ∈
      dispatchReadable st recv readSet := by
  unfold dispatchReadable
  refine List.mem_flatMap.mpr ⟨fd, h1, ?_⟩
  exact List.mem_filterMap.mpr ⟨id, h2, by simp [h3]⟩

theorem spec_C2_unconditional_delivery_witness :
    ({ sockId := 0, bytes := SAL_Socket_Read 0, cbState := some 7 } :
        Delivery) ∈
      dispatchReadable oneSocketState (fun _ => 0) [5] :=
  spec_C2_unconditional_delivery oneSocketState (fun _ => 0) [5] 5 0
    (by decide) (by decide) (by decide)

/-- Engine state with two distinct registered sockets (identities 0 and
1) sharing the same raw descriptor 5. -/
def twoSocketState : EngineState :=
  { sockets := fun _ =>
      { RawSocket := 5, Connected := true, LastError := 0,
        ReadCallback := some 1, ReadCallbackState := some 7 },
    asyncSocketList := [0, 1], listAllocated := true,
    asyncWorkerRunning := true, workerActive := true, workerCount := 1 }

/-- Claim C3 counterexample: with two distinct registered sockets
carrying the same descriptor 5, one cycle in which descriptor 5 is
reported readable dispatches twice — each readable handle is not
dispatched at most once per cycle, because the loop re-scans the whole
registration list per handle instead of using an identity map from the
batch. -/
theorem spec_C3_cex :
    (dispatchReadable twoSocketState (fun _ => 1) [5]).map Delivery.sockId =
      [0, 1] := by
  exact rfl

theorem dispatch_scan_eq_filter (socks : Nat → SAL_Socket)
    (l : List Nat) (recv : Nat → Int) (fd : Int) :
    (l.filterMap (fun id =>
        if (socks id).RawSocket = fd then
          some ({ sockId := id, bytes := SAL_Socket_Read (recv id),
                  cbState := (socks id).ReadCallbackState } : Delivery)
        else none)).map Delivery.sockId =
      l.filter (fun id => (socks id).RawSocket = fd) := by
  induction l with
  | nil => rfl
  | cons a t ih =>
    by_cases h : (socks a).RawSocket = fd <;>
      simp [List.filterMap_cons, List.filter_cons, h, ih]

/-- Claim C3 amended: the dispatch step finds sockets for a readable
handle by a linear re-scan of the entire shared registration list, not
via a mapping held by the batch: the callbacks invoked for one readable
descriptor are exactly those of every entry of the full
`asyncSocketList` whose `RawSocket` matches, in list order — so a
handle is dispatched once per matching entry (possibly several times),
and a matching registered socket receives a delivery whether or not it
was in the cycle's batch. -/
theorem spec_C3_linear_rescan (st : EngineState) (recv : Nat → Int) (fd : Int) :
    (dispatchReadable st recv [fd]).map Delivery.sockId =
      st.asyncSocketList.filter (fun id => (st.sockets id).RawSocket = fd) := by
  unfold dispatchReadable
  simp only [List.flatMap_cons, List.flatMap_nil, List.append_nil]
  exact dispatch_scan_eq_filter st.sockets st.asyncSocketList recv fd

/-- Engine state in which socket 0 is registered (descriptor 5,
callback 1, state 2) and the worker runs; used to exercise a shutdown
followed by re-registration of the same socket. -/
def staleSocketState : EngineState :=
  { sockets := fun _ =>
      { RawSocket := 5, Connected := true, LastError := 0,
        ReadCallback := some 1, ReadCallbackState := some 2 },
    asyncSocketList := [0], listAllocated := true,
    asyncWorkerRunning := true, workerActive := true, workerCount := 1 }

/-- Claim C7 counterexample: after `SAL_Socket_ClearCallbacks`,
re-registering socket 0 — which still carries its pre-shutdown
`ReadCallback` — restarts the worker but appends nothing to the fresh
registration list (line 455 checks the stale field), so the connection
is not registered: the new list stays empty and a poll cycle in which
its descriptor is readable delivers nothing to it. -/
theorem spec_C7_cex :
    (setReadCallbackOk (SAL_Socket_ClearCallbacks staleSocketState) 0 3 4
        ).asyncSocketList = [] ∧
    ((setReadCallbackOk (SAL_Socket_ClearCallbacks staleSocketState) 0 3 4
        ).sockets 0).ReadCallback = some 3 ∧
    dispatchReadable
        (setReadCallbackOk (SAL_Socket_ClearCallbacks staleSocketState) 0 3 4)
        (fun _ => 1) [5] = [] := by
  exact ⟨rfl, rfl, rfl⟩

/-- Claim C7 amended: after `SAL_Socket_ClearCallbacks`, a subsequent
`SAL_Socket_SetReadCallback` on a connection whose `ReadCallback` field
is currently null (a fresh connection, or one explicitly unset before
shutdown) restarts the engine from a clean state: it re-initialises the
registration list, sets `asyncWorkerRunning`, starts a new background
task, and registers the connection with its callback and state so that
delivery resumes.  A connection still carrying its pre-shutdown
callback is not re-added to the list. -/
theorem spec_C7_restart (st : EngineState) (id cb sv : Nat)
    (h : (st.sockets id).ReadCallback = none) :
    SAL_Socket_SetReadCallback (SAL_Socket_ClearCallbacks st)
        (some id) (some cb) (some sv) =
      .ok (setReadCallbackOk (SAL_Socket_ClearCallbacks st) id cb sv) ∧
    (setReadCallbackOk (SAL_Socket_ClearCallbacks st) id cb sv
        ).listAllocated = true ∧
    (setReadCallbackOk (SAL_Socket_ClearCallbacks st) id cb sv
        ).asyncWorkerRunning = true ∧
    (setReadCallbackOk (SAL_Socket_ClearCallbacks st) id cb sv
        ).workerActive = true ∧
    (setReadCallbackOk (SAL_Socket_ClearCallbacks st) id cb sv
        ).workerCount = st.workerCount + 1 ∧
    (setReadCallbackOk (SAL_Socket_ClearCallbacks st) id cb sv
        ).asyncSocketList = [id] ∧
    ((setReadCallbackOk (SAL_Socket_ClearCallbacks st) id cb sv
        ).sockets id).ReadCallback = some cb ∧
    ((setReadCallbackOk (SAL_Socket_ClearCallbacks st) id cb sv
        ).sockets id).ReadCallbackState = some sv := by
  refine ⟨rfl, ?_⟩
  unfold setReadCallbackOk SAL_Socket_ClearCallbacks
    SAL_Socket_CallbackWorker_Shutdown SAL_Socket_CallbackWorker_Start
    updateSocket
  simp [h]

theorem spec_C7_restart_witness :
    SAL_Socket_SetReadCallback (SAL_Socket_ClearCallbacks initState)
        (some 0) (some 1) (some 2) =
      .ok (setReadCallbackOk (SAL_Socket_ClearCallbacks initState) 0 1 2) ∧
    (setReadCallbackOk (SAL_Socket_ClearCallbacks initState) 0 1 2
        ).listAllocated = true ∧
    (setReadCallbackOk (SAL_Socket_ClearCallbacks initState) 0 1 2
        ).asyncWorkerRunning = true ∧
    (setReadCallbackOk (SAL_Socket_ClearCallbacks initState) 0 1 2
        ).workerActive = true ∧
    (setReadCallbackOk (SAL_Socket_ClearCallbacks initState) 0 1 2
        ).workerCount = initState.workerCount + 1 ∧
    (setReadCallbackOk (SAL_Socket_ClearCallbacks initState) 0 1 2
        ).asyncSocketList = [0] ∧
    ((setReadCallbackOk (SAL_Socket_ClearCallbacks initState) 0 1 2
        ).sockets 0).ReadCallback = some 1 ∧
    ((setReadCallbackOk (SAL_Socket_ClearCallbacks initState) 0 1 2
        ).sockets 0).ReadCallbackState = some 2 :=
  spec_C7_restart initState 0 1 2 rfl

theorem setOk_list (st : EngineState) (id cb sv : Nat) :
    (setReadCallbackOk st id cb sv).asyncSocketList =
      if st.asyncWorkerRunning then
        (if (st.sockets id).ReadCallback = none
         then st.asyncSocketList ++ [id] else st.asyncSocketList)
      else
        (if (st.sockets id).ReadCallback = none then [id] else []) := by
  unfold setReadCallbackOk SAL_Socket_CallbackWorker_Start updateSocket
  by_cases hw : st.asyncWorkerRunning <;>
    by_cases hcb : (st.sockets id).ReadCallback = none <;>
    simp [hw, hcb]

theorem setOk_sockets (st : EngineState) (id cb sv j : Nat) :
    (setReadCallbackOk st id cb sv).sockets j =
      if j = id then
        { st.sockets id with ReadCallback := some cb,
                             ReadCallbackState := some sv }
      else st.sockets j := by
  unfold setReadCallbackOk SAL_Socket_CallbackWorker_Start updateSocket
  by_cases hw : st.asyncWorkerRunning <;>
    by_cases hcb : (st.sockets id).ReadCallback = none <;>
    by_cases hj : j = id <;>
    simp [hw, hcb, hj]

theorem setOk_running (st : EngineState) (id cb sv : Nat) :
    (setReadCallbackOk st id cb sv).asyncWorkerRunning = true := by
  unfold setReadCallbackOk SAL_Socket_CallbackWorker_Start updateSocket
  by_cases hw : st.asyncWorkerRunning <;>
    by_cases hcb : (st.sockets id).ReadCallback = none <;>
    simp [hw, hcb]

theorem unsetOk_list (st : EngineState) (id : Nat) :
    (unsetSocketCallbackOk st id).asyncSocketList =
      if (st.sockets id).ReadCallback = none then st.asyncSocketList
      else st.asyncSocketList.erase id := by
  unfold unsetSocketCallbackOk updateSocket
  by_cases hcb : (st.sockets id).ReadCallback = none <;> simp [hcb]

theorem unsetOk_sockets (st : EngineState) (id j : Nat) :
    (unsetSocketCallbackOk st id).sockets j =
      if (st.sockets id).ReadCallback = none then st.sockets j
      else
        (if j = id then
          { st.sockets id with ReadCallback := none,
                               ReadCallbackState := none }
         else st.sockets j) := by
  unfold unsetSocketCallbackOk updateSocket
  by_cases hcb : (st.sockets id).ReadCallback = none <;>
    by_cases hj : j = id <;>
    simp [hcb, hj]

theorem unsetOk_running (st : EngineState) (id : Nat) :
    (unsetSocketCallbackOk st id).asyncWorkerRunning =
      st.asyncWorkerRunning := by
  unfold unsetSocketCallbackOk updateSocket
  by_cases hcb : (st.sockets id).ReadCallback = none <;> simp [hcb]

theorem engineInv_set (st : EngineState) (h : EngineInv st) (id cb sv : Nat) :
    EngineInv (setReadCallbackOk st id cb sv) := by
  obtain ⟨hnd, hiff, hrun⟩ := h
  refine ⟨?_, ?_, ?_⟩
  · rw [setOk_list]
    by_cases hw : st.asyncWorkerRunning <;>
      by_cases hcb : (st.sockets id).ReadCallback = none <;>
      simp [hw, hcb, List.nodup_append, hnd]
    exact fun hm => (hiff id).mp hm hcb
  · intro j
    rw [setOk_list, setOk_sockets]
    by_cases hj : j = id
    · subst hj
      by_cases hw : st.asyncWorkerRunning <;>
        by_cases hcb : (st.sockets j).ReadCallback = none <;>
        simp [hw, hcb]
      · exact (hiff j).mpr hcb
      · have hl := hrun (by simpa using hw)
        have := (hiff j).mpr hcb
        rw [hl] at this
        exact absurd this (List.not_mem_nil j)
    · by_cases hw : st.asyncWorkerRunning <;>
        by_cases hcb : (st.sockets id).ReadCallback = none <;>
        simp [hw, hcb, hj]
      · exact hiff j
      · exact hiff j
      · have hl := hrun (by simpa using hw)
        have := hiff j
        rw [hl] at this
        simpa using this
      · have hl := hrun (by simpa using hw)
        have := hiff j
        rw [hl] at this
        simpa using this
  · intro hfalse
    rw [setOk_running st id cb sv] at hfalse
    exact absurd hfalse (by simp)

theorem engineInv_unset (st : EngineState) (h : EngineInv st) (id : Nat) :
    EngineInv (unsetSocketCallbackOk st id) := by
  obtain ⟨hnd, hiff, hrun⟩ := h
  refine ⟨?_, ?_, ?_⟩
  · rw [unsetOk_list]
    by_cases hcb : (st.sockets id).ReadCallback = none <;> simp [hcb, hnd]
    exact hnd.erase id
  · intro j
    rw [unsetOk_list, unsetOk_sockets]
    by_cases hcb : (st.sockets id).ReadCallback = none
    · simp [hcb]
      exact hiff j
    · by_cases hj : j = id
      · subst hj
        simp [hcb, hnd.mem_erase_iff]
      · simp [hcb, hj, List.mem_erase_of_ne hj]
        exact hiff j
  · intro hfalse
    rw [unsetOk_running] at hfalse
    rw [unsetOk_list]
    rw [hrun hfalse]
    simp

theorem engineInv_applyOp (st : EngineState) (h : EngineInv st)
    (op : SocketOp) : EngineInv (applyOp st op) := by
  cases op with
  | set sock cb sv =>
    cases sock <;> cases cb <;> cases sv <;>
      simp [applyOp, SAL_Socket_SetReadCallback]
    all_goals first
      | exact h
      | exact engineInv_set st h _ _ _
  | unset sock =>
    cases sock <;> simp [applyOp, SAL_Socket_UnsetSocketCallback]
    · exact h
    · exact engineInv_unset st h _

theorem engineInv_foldl (ops : List SocketOp) :
    ∀ st, EngineInv st → EngineInv (ops.foldl applyOp st) := by
  induction ops with
  | nil => exact fun st h => h
  | cons op rest ih =>
    intro st h
    exact ih (applyOp st op) (engineInv_applyOp st h op)

theorem engineInv_runOps (ops : List SocketOp) : EngineInv (runOps ops) :=
  engineInv_foldl ops initState engineInv_initState

/-- A registered socket stays registered exactly once across a re-set:
its callback is non-null, so the append branch is skipped. -/
theorem set_mem_noappend (st : EngineState) (h : EngineInv st)
    (id cb sv : Nat) (hm : id ∈ st.asyncSocketList) :
    (setReadCallbackOk st id cb sv).asyncSocketList =
      st.asyncSocketList := by
  obtain ⟨hnd, hiff, hrun⟩ := h
  have hcb : (st.sockets id).ReadCallback ≠ none := (hiff id).mp hm
  have hw : st.asyncWorkerRunning = true := by
    by_contra hx
    have hl := hrun (by simpa using hx)
    rw [hl] at hm
    exact absurd hm (List.not_mem_nil id)
  rw [setOk_list]
  simp [hw, hcb]

/-- After an unset, the socket is gone from the registration list. -/
theorem unset_not_mem (st : EngineState) (h : EngineInv st) (id : Nat) :
    id ∉ (unsetSocketCallbackOk st id).asyncSocketList := by
  obtain ⟨hnd, hiff, hrun⟩ := h
  rw [unsetOk_list]
  by_cases hcb : (st.sockets id).ReadCallback = none
  · simp [hcb]
    exact fun hm => (hiff id).mp hm hcb
  · simp [hcb, hnd.mem_erase_iff]

/-- Claim C1: across every sequence of `SAL_Socket_SetReadCallback` and
`SAL_Socket_UnsetSocketCallback` calls from the pristine state, a
socket's `ReadCallback` is non-null exactly when the socket is in
`asyncSocketList`, the list never holds duplicates, re-setting a
callback on an already-registered socket appends nothing, and unsetting
removes the socket's entry. -/
theorem spec_C1_registration_invariant (ops : List SocketOp) :
    (runOps ops).asyncSocketList.Nodup ∧
    (∀ id, id ∈ (runOps ops).asyncSocketList ↔
      ((runOps ops).sockets id).ReadCallback ≠ none) ∧
    (∀ id cb sv, id ∈ (runOps ops).asyncSocketList →
      (applyOp (runOps ops) (.set (some id) (some cb) (some sv))
        ).asyncSocketList = (runOps ops).asyncSocketList) ∧
    (∀ id, id ∉
      (applyOp (runOps ops) (.unset (some id))).asyncSocketList) := by
  have h := engineInv_runOps ops
  refine ⟨h.1, h.2.1, ?_, ?_⟩
  · intro id cb sv hm
    simpa [applyOp, SAL_Socket_SetReadCallback] using
      set_mem_noappend (runOps ops) h id cb sv hm
  · intro id
    simpa [applyOp, SAL_Socket_UnsetSocketCallback] using
      unset_not_mem (runOps ops) h id

theorem spec_C1_registration_invariant_witness :
    (runOps [SocketOp.set (some 0) (some 1) (some 2)]
      ).asyncSocketList.Nodup ∧
    (0 ∈ (runOps [SocketOp.set (some 0) (some 1) (some 2)]
      ).asyncSocketList) ∧
    (applyOp (runOps [SocketOp.set (some 0) (some 1) (some 2)])
        (.set (some 0) (some 3) (some 4))).asyncSocketList =
      (runOps [SocketOp.set (some 0) (some 1) (some 2)]).asyncSocketList ∧
    0 ∉ (applyOp (runOps [SocketOp.set (some 0) (some 1) (some 2)])
        (.unset (some 0))).asyncSocketList := by
  have h := spec_C1_registration_invariant
    [SocketOp.set (some 0) (some 1) (some 2)]
  exact ⟨h.1, (h.2.1 0).mpr (by decide), h.2.2.1 0 3 4 (by decide),
         h.2.2.2 0⟩

/-- Engine state satisfying `EngineInv`: exactly socket 0 is registered
(descriptor 5, callback 1, state 7), every other identity is a fresh
socket. -/
def invSocketState : EngineState :=
  { sockets := fun j =>
      if j = 0 then
        { RawSocket := 5, Connected := true, LastError := 0,
          ReadCallback := some 1, ReadCallbackState := some 7 }
      else SAL_Socket_Init,
    asyncSocketList := [0], listAllocated := true,
    asyncWorkerRunning := true, workerActive := true, workerCount := 1 }

theorem engineInv_invSocketState : EngineInv invSocketState := by
  refine ⟨by decide, ?_, by simp [invSocketState]⟩
  intro id
  by_cases h0 : id = 0 <;> simp [invSocketState, h0, SAL_Socket_Init]

/-- Claim C8: `SAL_Socket_Close` runs `SAL_Socket_UnsetSocketCallback`
as a side effect — afterwards the socket's callback is null and the
socket is absent from the registration list — and clears `Connected`;
sockets produced by a successful connect or accept start with
`Connected` true, and registration or unregistration never changes
`Connected`, so the flag holds from connect/accept until this explicit
close. -/
theorem spec_C8_close (st : EngineState) (id : Nat) (h : EngineInv st) :
    SAL_Socket_Close st (some id) = .ok (closeOk st id) ∧
    ((closeOk st id).sockets id).Connected = false ∧
    ((closeOk st id).sockets id).ReadCallback = none ∧
    id ∉ (closeOk st id).asyncSocketList ∧
    (∀ fd, (socketFromConnect fd).Connected = true) ∧
    (∀ fd, (socketFromAccept fd).Connected = true) ∧
    (∀ j cb sv i, ((setReadCallbackOk st j cb sv).sockets i).Connected =
      (st.sockets i).Connected) ∧
    (∀ j i, ((unsetSocketCallbackOk st j).sockets i).Connected =
      (st.sockets i).Connected) := by
  refine ⟨rfl, ?_, ?_, ?_, fun fd => rfl, fun fd => rfl, ?_, ?_⟩
  · simp [closeOk, updateSocket]
  · simp only [closeOk, updateSocket]
    rw [unsetOk_sockets]
    by_cases hcb : (st.sockets id).ReadCallback = none <;> simp [hcb]
  · simp only [closeOk, updateSocket]
    exact unset_not_mem st h id
  · intro j cb sv i
    rw [setOk_sockets]
    by_cases hi : i = j <;> simp [hi]
  · intro j i
    rw [unsetOk_sockets]
    by_cases hcb : (st.sockets j).ReadCallback = none <;>
      by_cases hi : i = j <;> simp [hcb, hi]

theorem spec_C8_close_witness :
    SAL_Socket_Close invSocketState (some 0) =
      .ok (closeOk invSocketState 0) ∧
    ((closeOk invSocketState 0).sockets 0).Connected = false ∧
    ((closeOk invSocketState 0).sockets 0).ReadCallback = none ∧
    0 ∉ (closeOk invSocketState 0).asyncSocketList ∧
    (socketFromConnect 5).Connected = true ∧
    (socketFromAccept 5).Connected = true := by
  have h := spec_C8_close invSocketState 0 engineInv_invSocketState
  exact ⟨h.1, h.2.1, h.2.2.1, h.2.2.2.1, h.2.2.2.2.1 5, h.2.2.2.2.2.1 5⟩

theorem buildBatch_fst (sockets : List Nat) (pos : Nat) :
    (buildBatch sockets pos).1 = (sockets.drop pos).take FD_SETSIZE := by
  unfold buildBatch
  split <;> rfl

theorem stepPos_eq (sockets : List Nat) (pos : Nat) :
    stepPos sockets pos =
      if sockets.length < pos + FD_SETSIZE then 0
      else pos + FD_SETSIZE := by
  have hF : FD_SETSIZE = 1024 := rfl
  by_cases h : sockets.length < pos + FD_SETSIZE
  · rw [if_pos h]
    have hlt : ((sockets.drop pos).take FD_SETSIZE).length < FD_SETSIZE := by
      rw [List.length_take, List.length_drop, Nat.min_def]
      rw [hF] at h ⊢
      split <;> omega
    unfold stepPos buildBatch
    rw [if_pos hlt]
  · rw [if_neg h]
    have hge : ¬ ((sockets.drop pos).take FD_SETSIZE).length < FD_SETSIZE := by
      rw [List.length_take, List.length_drop, Nat.min_def]
      rw [hF] at h ⊢
      split <;> omega
    unfold stepPos buildBatch
    rw [if_neg hge]

theorem posAt_succ_front (s : List Nat) (p t : Nat) :
    posAt s p (t + 1) = posAt s (stepPos s p) t :=
  Function.iterate_succ_apply (stepPos s) t p

theorem posAt_succ_back (s : List Nat) (p t : Nat) :
    posAt s p (t + 1) = stepPos s (posAt s p t) :=
  Function.iterate_succ_apply' (stepPos s) t p

theorem posAt_add (s : List Nat) (p m n : Nat) :
    posAt s p (m + n) = posAt s (posAt s p n) m :=
  Function.iterate_add_apply (stepPos s) m n p

/-- From a cursor at the start of the list, cycle `t` begins at offset
`FD_SETSIZE * t` as long as that offset is within the list. -/
theorem posAt_from_zero (s : List Nat) (t : Nat)
    (h : FD_SETSIZE * t ≤ s.length) :
    posAt s 0 t = FD_SETSIZE * t := by
  have hF : FD_SETSIZE = 1024 := rfl
  induction t with
  | zero => simp [posAt]
  | succ t ih =>
    have h1 : FD_SETSIZE * t ≤ s.length := by
      rw [hF] at h ⊢
      omega
    rw [posAt_succ_back, ih h1, stepPos_eq]
    have h2 : ¬ s.length < FD_SETSIZE * t + FD_SETSIZE := by
      rw [hF] at h ⊢
      omega
    rw [if_neg h2]
    rw [hF]
    ring

/-- An element at offset `m + r` of the list, with `r` below the batch
limit, is inside the window of length `F` starting at `m`. -/
theorem mem_take_drop_of_index (s : List Nat) (m r F : Nat)
    (h : m + r < s.length) (hrF : r < F) :
    s.get ⟨m + r, h⟩ ∈ (s.drop m).take F := by
  have hlen : r < ((s.drop m).take F).length := by
    rw [List.length_take, List.length_drop]
    exact lt_min hrF (by omega)
  have hel : ((s.drop m).take F).get ⟨r, hlen⟩ = s.get ⟨m + r, h⟩ := by
    rw [List.get_eq_getElem, List.get_eq_getElem]
    rw [List.getElem_take, List.getElem_drop]
  rw [← hel]
  exact List.get_mem _ _ _

/-- From a cursor at the start of the list, the element at offset
`FD_SETSIZE * q + r` is a member of the batch of cycle `q`. -/
theorem cover_from_zero (s : List Nat) (q r : Nat) (hrF : r < FD_SETSIZE)
    (h : FD_SETSIZE * q + r < s.length) :
    s.get ⟨FD_SETSIZE * q + r, h⟩ ∈ batchAt s 0 q := by
  have hF : FD_SETSIZE = 1024 := rfl
  have hpos0 : posAt s 0 q = FD_SETSIZE * q := by
    apply posAt_from_zero
    omega
  unfold batchAt
  rw [hpos0, buildBatch_fst]
  exact mem_take_drop_of_index s (FD_SETSIZE * q) r FD_SETSIZE h hrF

/-- From any in-range cursor, the cursor returns to the start of the
list within `(length - pos) / FD_SETSIZE + 1` cycles: the pass runs to
the end of the list, then the iterator reset fires. -/
theorem reset_aux (s : List Nat) (q : Nat) :
    ∀ p, p ≤ s.length → (s.length - p) / FD_SETSIZE = q →
      posAt s p (q + 1) = 0 := by
  have hF : FD_SETSIZE = 1024 := rfl
  induction q with
  | zero =>
    intro p hp hq
    have hlt : s.length < p + FD_SETSIZE := by
      rw [hF] at hq ⊢
      omega
    rw [posAt_succ_back]
    simp only [posAt, Function.iterate_zero_apply]
    rw [stepPos_eq, if_pos hlt]
  | succ q ih =>
    intro p hp hq
    have hge : p + FD_SETSIZE ≤ s.length := by
      by_contra hx
      rw [hF] at hx hq
      omega
    have hstep : stepPos s p = p + FD_SETSIZE := by
      rw [stepPos_eq, if_neg (by omega)]
    rw [posAt_succ_front, hstep]
    apply ih (p + FD_SETSIZE) hge
    rw [hF] at hq ⊢
    omega

theorem reset_reaches_zero (s : List Nat) (p : Nat) (hp : p ≤ s.length) :
    posAt s p ((s.length - p) / FD_SETSIZE + 1) = 0 :=
  reset_aux s ((s.length - p) / FD_SETSIZE) p hp rfl

/-- Claim C6: each poller cycle's batch is the next up-to-`FD_SETSIZE`
slice of the registered list from the saved cursor (so a batch never
exceeds the platform maximum and holds only registered sockets); a full
batch leaves the cursor right after the slice so the next cycle resumes
there, a short batch (the pass exhausted the list) resets the cursor to
the start; consequently every registered socket appears in some cycle's
batch within `2 * (length / FD_SETSIZE + 1)` cycles. -/
theorem spec_C6_batching (sockets : List Nat) (pos : Nat)
    (hpos : pos ≤ sockets.length) :
    (buildBatch sockets pos).1.length ≤ FD_SETSIZE ∧
    (∀ x ∈ (buildBatch sockets pos).1, x ∈ sockets) ∧
    (buildBatch sockets pos).1 = (sockets.drop pos).take FD_SETSIZE ∧
    ((buildBatch sockets pos).1.length = FD_SETSIZE →
      stepPos sockets pos = pos + FD_SETSIZE) ∧
    ((buildBatch sockets pos).1.length < FD_SETSIZE →
      stepPos sockets pos = 0) ∧
    (∀ x ∈ sockets, ∃ t ≤ 2 * (sockets.length / FD_SETSIZE + 1),
      x ∈ batchAt sockets pos t) := by
  have hF : FD_SETSIZE = 1024 := rfl
  have hlen : (buildBatch sockets pos).1.length =
      min FD_SETSIZE (sockets.length - pos) := by
    rw [buildBatch_fst, List.length_take, List.length_drop]
  refine ⟨?_, ?_, buildBatch_fst sockets pos, ?_, ?_, ?_⟩
  · rw [hlen]
    exact min_le_left _ _
  · intro x hx
    rw [buildBatch_fst] at hx
    exact List.drop_subset pos sockets (List.take_subset FD_SETSIZE _ hx)
  · intro hfull
    rw [hlen] at hfull
    rw [stepPos_eq, if_neg]
    rw [hF] at hfull ⊢
    omega
  · intro hshort
    rw [hlen] at hshort
    rw [stepPos_eq, if_pos]
    rw [hF] at hshort ⊢
    omega
  · intro x hx
    obtain ⟨i, hi, hgi⟩ := List.mem_iff_getElem.mp hx
    have hd : FD_SETSIZE * (i / FD_SETSIZE) + i % FD_SETSIZE = i :=
      Nat.div_add_mod i FD_SETSIZE
    have hrF : i % FD_SETSIZE < FD_SETSIZE :=
      Nat.mod_lt i (by rw [hF]; omega)
    have hd' : FD_SETSIZE * (i / FD_SETSIZE) + i % FD_SETSIZE <
        sockets.length := by
      rw [hd]; exact hi
    have hcov := cover_from_zero sockets (i / FD_SETSIZE) (i % FD_SETSIZE)
      hrF hd'
    have hxel : sockets.get ⟨FD_SETSIZE * (i / FD_SETSIZE) + i % FD_SETSIZE,
        hd'⟩ = x := by
      rw [← hgi, List.get_eq_getElem]
      congr 1
    refine ⟨i / FD_SETSIZE + ((sockets.length - pos) / FD_SETSIZE + 1),
      ?_, ?_⟩
    · have h1 : i / FD_SETSIZE ≤ sockets.length / FD_SETSIZE :=
        Nat.div_le_div_right (Nat.le_of_lt hi)
      have h2 : (sockets.length - pos) / FD_SETSIZE ≤
          sockets.length / FD_SETSIZE :=
        Nat.div_le_div_right (Nat.sub_le _ _)
      omega
    · unfold batchAt
      rw [posAt_add, reset_reaches_zero sockets pos hpos]
      rw [hxel] at hcov
      unfold batchAt at hcov
      exact hcov

theorem spec_C6_batching_witness :
    (buildBatch [5] 0).1.length ≤ FD_SETSIZE ∧
    (∀ x ∈ (buildBatch [5] 0).1, x ∈ [5]) ∧
    (buildBatch [5] 0).1 = (([5] : List Nat).drop 0).take FD_SETSIZE ∧
    ((buildBatch [5] 0).1.length = FD_SETSIZE →
      stepPos [5] 0 = 0 + FD_SETSIZE) ∧
    ((buildBatch [5] 0).1.length < FD_SETSIZE → stepPos [5] 0 = 0) ∧
    (∀ x ∈ ([5] : List Nat),
      ∃ t ≤ 2 * (([5] : List Nat).length / FD_SETSIZE + 1),
        x ∈ batchAt [5] 0 t) :=
  spec_C6_batching [5] 0 (by decide)
